import Mathlib

/-!
Shallow embedding of the budget-tracker backend (src/index.js, src/db.js).

The store is modelled as in-memory lists.  A stored transaction (`Txn`)
carries the paths `TransactionSchema` (db.js lines 18-23) declares —
userId, amount, category, date — together with the non-schema paths the
queries read (payee, exceededLimit, createdAt) as `Option` values that are
absent (`none`) on every record this backend writes: mongoose schemas are
strict by default, so `.save()` silently drops the `payee` and
`exceededLimit` arguments the `/check-transaction` handler passes, and
nothing ever writes a `createdAt` path (the schema has no `timestamps`
option); `saveTxn` makes this stripping explicit.  `CatLimit` records
mirror the CategoryLimit schema, whose paths all exist.  JavaScript
numbers the handlers use arithmetically are modelled as `Int`; `Date`
values as an absolute month index plus a time offset within the month,
ordered lexicographically, so that `new Date(y, m, 1)` is the pair
(month, 0).
-/

/-- A point in time: absolute month index (year*12+month) and an offset
within that month; `time = 0` is the first instant of the month.  Ordered
lexicographically by `dateLe`. -/
structure JsDate where
  month : Int
  time : Int
deriving DecidableEq, Repr

/-- `d1 <= d2` on dates (lexicographic on month, then time-within-month). -/
def dateLe (d1 d2 : JsDate) : Bool :=
  d1.month < d2.month || (d1.month == d2.month && d1.time ≤ d2.time)

/-- `new Date(now.getFullYear(), now.getMonth(), 1)`: the first instant of
the month containing `now` (src/index.js line 211). -/
def firstDayOfMonth (now : JsDate) : JsDate :=
  ⟨now.month, 0⟩

/-- The object the `/check-transaction` handler passes to
`new TransactionModel({...})` (src/index.js lines 235-242), before the
schema is applied. -/
structure TxnDoc where
  userId : String
  category : String
  amount : Int
  payee : String
  date : JsDate
  exceededLimit : Bool
deriving DecidableEq, Repr

/-- A stored transaction document.  The schema paths (userId, amount,
category, date — db.js lines 18-23) are always present; `payee`,
`exceededLimit` and `createdAt` are paths outside the schema that queries
refer to, present only if some writer had stored them — which this
backend never does (see `saveTxn`). -/
structure Txn where
  userId : String
  amount : Int
  category : String
  date : JsDate
  payee : Option String
  exceededLimit : Option Bool
  createdAt : Option JsDate
deriving DecidableEq, Repr

/-- `.save()` on the Transaction model: mongoose schemas are strict by
default, so only the paths `TransactionSchema` declares are persisted —
the handler's `payee` and `exceededLimit` arguments are silently dropped,
and no `createdAt` is written (the schema has no `timestamps` option). -/
def saveTxn (doc : TxnDoc) : Txn :=
  ⟨doc.userId, doc.amount, doc.category, doc.date, none, none, none⟩

/-- A persisted category limit (db.js CategoryLimitSchema). -/
structure CatLimit where
  userId : String
  category : String
  limit : Int
deriving DecidableEq, Repr

/-- The store: the Transaction and CategoryLimit collections, each in
natural (insertion) order. -/
structure ServerState where
  transactions : List Txn
  limits : List CatLimit
deriving DecidableEq, Repr

/-- The JSON body of a `/check-transaction` request.  `category`, `amount`,
`redirectUrl`, `payee`, `bypassLimitCheck` are the fields the handler
destructures (src/index.js line 200); `date` and `exceededLimit` model
extra fields a caller may send, which the handler never reads. -/
structure Body where
  category : Option String
  amount : Option Int
  redirectUrl : Option String
  payee : Option String
  bypassLimitCheck : Bool
  date : Option JsDate
  exceededLimit : Option Bool
deriving DecidableEq, Repr

/-- JS truthiness of an optional string field (`!x` fails for undefined and
for the empty string). -/
def presentStr : Option String → Bool
  | none => false
  | some s => !(s == "")

/-- JS truthiness of an optional numeric field (`!x` fails for undefined
and for 0). -/
def presentNum : Option Int → Bool
  | none => false
  | some n => !(n == 0)

/-- `userTransactions.reduce((sum, txn) => sum + txn.amount, 0)` over
`TransactionModel.find({ userId, category, date: { $gte: firstDayOfMonth } })`
(src/index.js lines 212-213); all three filter paths are schema paths.
Note the query has no upper date bound. -/
def totalSpent (txns : List Txn) (userId category : String) (now : JsDate) : Int :=
  ((txns.filter fun t =>
      t.userId == userId && t.category == category &&
        dateLe (firstDayOfMonth now) t.date).map (·.amount)).sum

/-- `CategoryLimitModel.findOne({ userId, category })`: first matching
record in natural order (src/index.js line 214). -/
def findLimit (ls : List CatLimit) (userId category : String) : Option CatLimit :=
  ls.find? fun l => l.userId == userId && l.category == category

/-- The `limitDetails` object built when a transaction exceeds the limit
(src/index.js lines 218-223). -/
structure LimitDetails where
  limit : Int
  spent : Int
  remaining : Int
  exceedAmount : Int
deriving DecidableEq, Repr

/-- Outcome of a `/check-transaction` call: HTTP 400 (missing fields),
HTTP 411 (limit exceeded, no bypass), or HTTP 200.  `saved` carries the
final values of the handler's `exceedsLimit` and `limitDetails` variables
(the 200 response body itself reports only a message and the redirect). -/
inductive CheckResult where
  | missingFields
  | limitExceeded (details : LimitDetails)
  | saved (exceedsLimit : Bool) (details : Option LimitDetails)
deriving DecidableEq, Repr

/-- The `/check-transaction` handler (src/index.js lines 198-254).  `now`
is the server clock at the moment of the call; the caller's identity
`userId` comes from the auth middleware.  Returns the response outcome and
the store after the call; the persisted record is `saveTxn` of the object
the handler passes to the model. -/
def checkTransaction (st : ServerState) (now : JsDate) (userId : String)
    (b : Body) : CheckResult × ServerState :=
  if !presentStr b.category || !presentNum b.amount ||
      !presentStr b.redirectUrl || !presentStr b.payee then
    (.missingFields, st)
  else
    match b.category, b.amount, b.payee with
    | some category, some amount, some payee =>
      let spent := totalSpent st.transactions userId category now
      match findLimit st.limits userId category with
      | some categoryLimit =>
        if spent + amount > categoryLimit.limit then
          let details : LimitDetails :=
            ⟨categoryLimit.limit, spent, categoryLimit.limit - spent,
              amount - (categoryLimit.limit - spent)⟩
          if b.bypassLimitCheck then
            (.saved true (some details),
              { st with transactions := st.transactions ++
                  [saveTxn ⟨userId, category, amount, payee, now, true⟩] })
          else
            (.limitExceeded details, st)
        else
          (.saved false none,
            { st with transactions := st.transactions ++
                [saveTxn ⟨userId, category, amount, payee, now, false⟩] })
      | none =>
        (.saved false none,
          { st with transactions := st.transactions ++
              [saveTxn ⟨userId, category, amount, payee, now, false⟩] })
    | _, _, _ => (.missingFields, st)

/-- The category-inference core of the `/get-category` handler
(src/index.js lines 94-118) under mongoose's `strictQuery: false` default
(mongoose 5, 7 and 8): the filters `{ payee, userId }` and `{ payee }`
keep the `payee` equality condition, which only a document carrying a
`payee` path can satisfy — and no document this backend stores carries
one.  `.sort({ createdAt: -1 })` orders by a path no stored document has;
`find?` (first match) stands in for `findOne`, and over stores written by
this backend no document matches the payee condition, so the result does
not depend on that vacuous order.  Returns the `category` value of the
200 response, `none` standing for JSON `null`. -/
def inferCategory (txns : List Txn) (userId payee : String) : Option String :=
  match txns.find? fun t => t.payee == some payee && t.userId == userId with
  | some userTransaction => some userTransaction.category
  | none =>
    match txns.find? fun t => t.payee == some payee with
    | some globalTransaction => some globalTransaction.category
    | none => none

/-- The same handler under mongoose 6's `strictQuery: true` default,
where filter paths outside the schema are silently stripped from the
query: the owner query degenerates to `findOne({ userId })` and the
global query to `findOne({})`, neither constrained by payee; the vacuous
`createdAt` sort leaves natural order (modelled as first in insertion
order). -/
def inferCategoryStrictQueryOn (txns : List Txn) (userId : String)
    (_payee : String) : Option String :=
  match txns.find? fun t => t.userId == userId with
  | some userTransaction => some userTransaction.category
  | none =>
    match txns.head? with
    | some globalTransaction => some globalTransaction.category
    | none => none

/-- A JavaScript value as it can appear in a `/set-category-limit` batch
entry: a string, a number, or undefined. -/
inductive JsVal where
  | str (s : String)
  | num (n : Int)
  | undef
deriving DecidableEq, Repr

/-- Value of a list of decimal digits, `none` when a non-digit occurs. -/
def decDigits (acc : Nat) : List Char → Option Nat
  | [] => some acc
  | ch :: rest =>
    if '0' ≤ ch && ch ≤ '9' then
      decDigits (acc * 10 + (ch.toNat - '0'.toNat)) rest
    else none

/-- JS `Number(v)` restricted to the value shapes the handlers receive:
numbers are themselves, `Number("") = 0`, a string of decimal digits is
its numeric value, any other string and `undefined` give NaN (`none`). -/
def jsNumber : JsVal → Option Int
  | .num n => some n
  | .str s => if s == "" then some 0 else (decDigits 0 s.toList).map Int.ofNat
  | .undef => none

/-- One entry of the `limits` array of a `/set-category-limit` request. -/
structure LimitEntry where
  category : JsVal
  limit : JsVal
deriving DecidableEq, Repr

/-- The validity test on one entry (src/index.js line 132):
`typeof category === "string"`, `Number(limit)` is not NaN, and
`Number(limit) >= 0`. -/
def entryValid (e : LimitEntry) : Bool :=
  (match e.category with | .str _ => true | _ => false) &&
  (match jsNumber e.limit with | some n => decide (0 ≤ n) | none => false)

/-- `CategoryLimitModel.findOneAndUpdate({userId, category}, {...})`
without upsert: replace the first matching record, `none` if no record
matches. -/
def updateFirstLimit (userId category : String) (cap : Int) :
    List CatLimit → Option (List CatLimit)
  | [] => none
  | l :: rest =>
    if l.userId == userId && l.category == category then
      some (⟨userId, category, cap⟩ :: rest)
    else
      (updateFirstLimit userId category cap rest).map (l :: ·)

/-- `CategoryLimitModel.findOneAndUpdate({userId, category},
{userId, category, limit}, {upsert: true})` (src/index.js lines 136-140):
replace the first matching record, or append a new one.  All paths are
CategoryLimitSchema paths, and `findOneAndUpdate` runs no validators by
default. -/
def upsertLimit (ls : List CatLimit) (userId category : String) (cap : Int) :
    List CatLimit :=
  match updateFirstLimit userId category cap ls with
  | some ls2 => ls2
  | none => ls ++ [⟨userId, category, cap⟩]

/-- Outcome of a `/set-category-limit` call: HTTP 400 for a body whose
`limits` is not a non-empty array, HTTP 400 from inside the loop for an
invalid entry, or HTTP 200. -/
inductive SetResult where
  | invalidFormat
  | invalidEntry
  | ok
deriving DecidableEq, Repr

/-- The `for (const { category, limit } of limits)` loop of the
`/set-category-limit` handler (src/index.js lines 131-141): each entry is
validated and, if valid, immediately upserted; the first invalid entry
returns 400 with the store as updated so far. -/
def setLimitsLoop (userId : String) :
    List LimitEntry → List CatLimit → SetResult × List CatLimit
  | [], ls => (.ok, ls)
  | e :: rest, ls =>
    match e.category, jsNumber e.limit with
    | .str c, some n =>
      if n < 0 then (.invalidEntry, ls)
      else setLimitsLoop userId rest (upsertLimit ls userId c n)
    | _, _ => (.invalidEntry, ls)

/-- The `/set-category-limit` handler (src/index.js lines 120-148).
`body` is the `limits` field of the request: `none` when absent or not an
array, otherwise the list of entries.  Returns the response outcome and
the CategoryLimit collection after the call. -/
def setCategoryLimit (ls : List CatLimit) (userId : String)
    (body : Option (List LimitEntry)) : SetResult × List CatLimit :=
  match body with
  | none => (.invalidFormat, ls)
  | some limits =>
    if limits.isEmpty then (.invalidFormat, ls)
    else setLimitsLoop userId limits ls

/-- Applying one valid entry of a batch (the upsert the loop performs
when the entry passes validation). -/
def applyEntry (userId : String) (ls : List CatLimit) (e : LimitEntry) :
    List CatLimit :=
  match e.category, jsNumber e.limit with
  | .str c, some n => upsertLimit ls userId c n
  | _, _ => ls

/-- Modelled from the spec (§4.2 Spend Aggregator): the sum of the
amounts of the owner's transactions in the category whose timestamp lies
in the closed window `[wStart, wEnd]`.  Used to compare the code's
month-to-date aggregation against the spec's. -/
def spendSoFarSpec (txns : List Txn) (owner category : String)
    (wStart wEnd : JsDate) : Int :=
  ((txns.filter fun t =>
      t.userId == owner && t.category == category &&
        dateLe wStart t.date && dateLe t.date wEnd).map (·.amount)).sum

/-- Evaluation of `/check-transaction` once all four required fields are
present and truthy: the handler reaches the limit check and the save. -/
theorem checkTransaction_some (st : ServerState) (now : JsDate) (u c r p : String)
    (a : Int) (byp : Bool) (d : Option JsDate) (e : Option Bool)
    (hc : ¬c = "") (ha : ¬a = 0) (hr : ¬r = "") (hp : ¬p = "") :
    checkTransaction st now u ⟨some c, some a, some r, some p, byp, d, e⟩ =
      (match findLimit st.limits u c with
       | some categoryLimit =>
         if totalSpent st.transactions u c now + a > categoryLimit.limit then
           if byp then
             (.saved true (some ⟨categoryLimit.limit, totalSpent st.transactions u c now,
                 categoryLimit.limit - totalSpent st.transactions u c now,
                 a - (categoryLimit.limit - totalSpent st.transactions u c now)⟩),
               { st with transactions := st.transactions ++ [saveTxn ⟨u, c, a, p, now, true⟩] })
           else
             (.limitExceeded ⟨categoryLimit.limit, totalSpent st.transactions u c now,
                 categoryLimit.limit - totalSpent st.transactions u c now,
                 a - (categoryLimit.limit - totalSpent st.transactions u c now)⟩, st)
         else
           (.saved false none,
             { st with transactions := st.transactions ++ [saveTxn ⟨u, c, a, p, now, false⟩] })
       | none =>
         (.saved false none,
           { st with transactions := st.transactions ++ [saveTxn ⟨u, c, a, p, now, false⟩] })) := by
  simp [checkTransaction, presentStr, presentNum, hc, ha, hr, hp]

/-- C1: with a cap configured, `priorSpend + amount > cap` and the bypass
flag false, the call returns the limit-exceeded outcome carrying
`remaining = cap - priorSpend`, and the store is unchanged (no Transaction
persisted). -/
theorem c1_reject_over_limit_no_persist (st : ServerState) (now : JsDate)
    (u c r p : String) (a : Int) (d : Option JsDate) (e : Option Bool)
    (cl : CatLimit)
    (hc : ¬c = "") (ha : ¬a = 0) (hr : ¬r = "") (hp : ¬p = "")
    (hlim : findLimit st.limits u c = some cl)
    (hover : totalSpent st.transactions u c now + a > cl.limit) :
    checkTransaction st now u ⟨some c, some a, some r, some p, false, d, e⟩ =
      (.limitExceeded ⟨cl.limit, totalSpent st.transactions u c now,
          cl.limit - totalSpent st.transactions u c now,
          a - (cl.limit - totalSpent st.transactions u c now)⟩, st) := by
  rw [checkTransaction_some st now u c r p a false d e hc ha hr hp, hlim]
  simp [hover]

/-- C1 witness: cap 100, no prior spend, amount 150, bypass false: the
call is rejected with remaining 100 and the store is unchanged. -/
theorem c1_reject_over_limit_no_persist_witness :
    checkTransaction ⟨[], [⟨"u", "Food", 100⟩]⟩ ⟨0, 5⟩ "u"
        ⟨some "Food", some 150, some "r", some "p", false, none, none⟩ =
      (.limitExceeded ⟨100, 0, 100, 50⟩, ⟨[], [⟨"u", "Food", 100⟩]⟩) :=
  c1_reject_over_limit_no_persist ⟨[], [⟨"u", "Food", 100⟩]⟩ ⟨0, 5⟩
    "u" "Food" "r" "p" 150 none none ⟨"u", "Food", 100⟩
    (by decide) (by decide) (by decide) (by decide) (by decide) (by decide)

/-- C2 failing input: cap 100 for (u, Food), empty month, amount 150,
bypass true.  The handler reports the override and computes
`exceedAmount = 50`, but the record it persists carries no exceeded-limit
path at all: `TransactionSchema` declares none and the strict schema
drops the handler's `exceededLimit: true` argument at save (second
conjunct), so no Transaction with exceeded-limit flag = true is ever
persisted and a later read of the flag sees the falsy absent value. -/
theorem c2_exceeded_flag_not_persisted :
    checkTransaction ⟨[], [⟨"u", "Food", 100⟩]⟩ ⟨0, 5⟩ "u"
        ⟨some "Food", some 150, some "r", some "p", true, none, none⟩ =
      (.saved true (some ⟨100, 0, 100, 50⟩),
        ⟨[⟨"u", 150, "Food", ⟨0, 5⟩, none, none, none⟩], [⟨"u", "Food", 100⟩]⟩) ∧
    (saveTxn ⟨"u", "Food", 150, "p", ⟨0, 5⟩, true⟩).exceededLimit = none := by
  refine ⟨by decide, by decide⟩

/-- C3: with a cap configured and `priorSpend + amount <= cap` (the
boundary case of equality included), the call admits the transaction and
appends exactly one Transaction, passed to the store with exceeded-limit
flag false (the stored record, `saveTxn` of that document, is not marked
exceeded: the absent flag reads as the data model's default false). -/
theorem c3_within_limit_admit (st : ServerState) (now : JsDate)
    (u c r p : String) (a : Int) (byp : Bool) (d : Option JsDate) (e : Option Bool)
    (cl : CatLimit)
    (hc : ¬c = "") (ha : ¬a = 0) (hr : ¬r = "") (hp : ¬p = "")
    (hlim : findLimit st.limits u c = some cl)
    (hle : totalSpent st.transactions u c now + a ≤ cl.limit) :
    checkTransaction st now u ⟨some c, some a, some r, some p, byp, d, e⟩ =
      (.saved false none,
        { st with transactions := st.transactions ++ [saveTxn ⟨u, c, a, p, now, false⟩] }) := by
  rw [checkTransaction_some st now u c r p a byp d e hc ha hr hp, hlim]
  simp [not_lt.mpr hle]

/-- C3 witness: cap 100, no prior spend, amount exactly 100 (the
boundary): the transaction is admitted and stored, not marked exceeded. -/
theorem c3_within_limit_admit_witness :
    checkTransaction ⟨[], [⟨"u", "Food", 100⟩]⟩ ⟨0, 5⟩ "u"
        ⟨some "Food", some 100, some "r", some "p", false, none, none⟩ =
      (.saved false none,
        ⟨[saveTxn ⟨"u", "Food", 100, "p", ⟨0, 5⟩, false⟩], [⟨"u", "Food", 100⟩]⟩) :=
  c3_within_limit_admit ⟨[], [⟨"u", "Food", 100⟩]⟩ ⟨0, 5⟩
    "u" "Food" "r" "p" 100 false none none ⟨"u", "Food", 100⟩
    (by decide) (by decide) (by decide) (by decide) (by decide) (by decide)

/-- Store for the C4 counterexample: one transaction dated after the
moment of the call (`now` = (0,5), transaction at (0,9)), and a cap of
150. -/
def c4store : ServerState :=
  ⟨[⟨"u", 100, "Food", ⟨0, 9⟩, none, none, none⟩], [⟨"u", "Food", 150⟩]⟩

/-- C4 counterexample: the `date: { $gte: firstDayOfMonth }` query has no
upper bound, so a stored transaction whose timestamp lies after the
moment of the call is counted into `priorSpend`.  Here the month-to-date
window `[first of month, now]` contains no transaction (spec sum 0), yet
the handler computes `priorSpend = 100` and rejects an amount of 100
against the cap of 150. -/
theorem c4_counterexample :
    totalSpent c4store.transactions "u" "Food" ⟨0, 5⟩ = 100 ∧
    spendSoFarSpec c4store.transactions "u" "Food" (firstDayOfMonth ⟨0, 5⟩) ⟨0, 5⟩ = 0 ∧
    checkTransaction c4store ⟨0, 5⟩ "u"
        ⟨some "Food", some 100, some "r", some "p", false, none, none⟩ =
      (.limitExceeded ⟨150, 100, 50, 50⟩, c4store) := by
  refine ⟨by decide, by decide, by decide⟩

/-- C4 as amended: the `priorSpend` used by the decision is the sum over
stored Transactions of the same owner and category whose timestamp is at
or after the first instant of the current month, with no upper bound;
whenever every stored transaction is dated at or before the moment of the
call (as holds for server-assigned timestamps), this coincides with the
month-to-date window `[first instant of the month, now]`. -/
theorem c4_month_window_amended (txns : List Txn) (u c : String) (now : JsDate)
    (h : ∀ t ∈ txns, dateLe t.date now = true) :
    totalSpent txns u c now =
      spendSoFarSpec txns u c (firstDayOfMonth now) now := by
  unfold totalSpent spendSoFarSpec
  congr 1
  congr 1
  apply List.filter_congr
  intro t ht
  rw [h t ht, Bool.and_true]

/-- C4 witness: a store holding one current-month and one earlier-month
transaction, all dated at or before `now`; the handler's aggregation
agrees with the spec's month-to-date window. -/
theorem c4_month_window_amended_witness :
    totalSpent [⟨"u", 30, "Food", ⟨0, 1⟩, none, none, none⟩,
        ⟨"u", 40, "Food", ⟨-1, 5⟩, none, none, none⟩] "u" "Food" ⟨0, 5⟩ =
      spendSoFarSpec [⟨"u", 30, "Food", ⟨0, 1⟩, none, none, none⟩,
        ⟨"u", 40, "Food", ⟨-1, 5⟩, none, none, none⟩]
        "u" "Food" (firstDayOfMonth ⟨0, 5⟩) ⟨0, 5⟩ :=
  c4_month_window_amended _ "u" "Food" ⟨0, 5⟩ (by decide)

/-- Stored transactions for the C5 failing input, as the backend itself
persists them (payee passed to the handler, stripped at save): owner "u1"
recorded one transaction created with payee "Uber", category "Travel";
owner "u2" one created with payee "Amazon", category "Shopping". -/
def c5txns : List Txn :=
  [saveTxn ⟨"u1", "Travel", 40, "Uber", ⟨0, 1⟩, false⟩,
   saveTxn ⟨"u2", "Shopping", 20, "Amazon", ⟨0, 2⟩, false⟩]

/-- C5 failing input: the claim requires `inferCategory("u1", "Amazon")`
to fall back to the most recent "Amazon" transaction across owners and
return "Shopping".  But no stored document carries a `payee` (or
`createdAt`) path — first conjunct — so the real queries cannot match on
payee: under mongoose's `strictQuery: false` default (v5/7/8) the payee
condition matches no document and the endpoint returns `null`; under
mongoose 6's `strictQuery: true` the payee condition is silently stripped
and the owner query returns u1's only transaction, "Travel" (a forced
choice — u1 has exactly one, so no ordering assumption is involved).
Neither behaviour yields "Shopping". -/
theorem c5_inference_failing_input :
    (∀ t ∈ c5txns, t.payee = none ∧ t.createdAt = none) ∧
    inferCategory c5txns "u1" "Amazon" = none ∧
    inferCategoryStrictQueryOn c5txns "u1" "Amazon" = some "Travel" ∧
    ¬inferCategory c5txns "u1" "Amazon" = some "Shopping" ∧
    ¬inferCategoryStrictQueryOn c5txns "u1" "Amazon" = some "Shopping" := by
  decide

/-- C6 counterexample: every field present and `amount = -5`, which is
not a positive number, yet validation passes (JS `!amount` only fails for
0/NaN/undefined) and a Transaction with a negative amount is created
(`amount` is a schema path, so it is persisted). -/
theorem c6_counterexample :
    checkTransaction ⟨[], []⟩ ⟨0, 5⟩ "u"
        ⟨some "Food", some (-5), some "r", some "p", false, none, none⟩ =
      (.saved false none, ⟨[saveTxn ⟨"u", "Food", -5, "p", ⟨0, 5⟩, false⟩], []⟩) ∧
    ¬(0 < (-5 : Int)) := by
  refine ⟨by decide, by decide⟩

/-- C6 as amended: a `/check-transaction` call fails with the validation
error exactly when one of category, amount, redirect target, payee is
JS-falsy (absent, an empty string, or amount 0); on that failure the
store is unchanged.  Zero amounts are rejected, but negative amounts pass
validation (and create a record). -/
theorem c6_validation_amended (st : ServerState) (now : JsDate) (u : String) (b : Body) :
    ((checkTransaction st now u b).1 = .missingFields ↔
      (!presentStr b.category || !presentNum b.amount ||
        !presentStr b.redirectUrl || !presentStr b.payee) = true) ∧
    ((checkTransaction st now u b).1 = .missingFields →
      (checkTransaction st now u b).2 = st) := by
  rcases b with ⟨bc, ba, br, bp, byp, bd, be⟩
  cases hcond : (!presentStr bc || !presentNum ba || !presentStr br || !presentStr bp) with
  | true =>
    constructor
    · simp [checkTransaction, hcond]
    · intro _
      simp [checkTransaction, hcond]
  | false =>
    have hbc : presentStr bc = true := by
      cases h : presentStr bc <;> simp [h] at hcond ⊢
    have hba : presentNum ba = true := by
      cases h : presentNum ba <;> simp [h] at hcond ⊢
    have hbp : presentStr bp = true := by
      cases h : presentStr bp <;> simp [h] at hcond ⊢
    rcases bc with _ | c
    · simp [presentStr] at hbc
    rcases ba with _ | a
    · simp [presentNum] at hba
    rcases bp with _ | p
    · simp [presentStr] at hbp
    have hfst : (checkTransaction st now u ⟨some c, some a, br, some p, byp, bd, be⟩).1 ≠
        .missingFields := by
      unfold checkTransaction
      rw [hcond]
      simp only [Bool.false_eq_true, if_false]
      cases findLimit st.limits u c with
      | none => simp
      | some cl =>
        by_cases hov : cl.limit < totalSpent st.transactions u c now + a
        · cases byp <;> simp [hov]
        · simp [hov]
    exact ⟨by simp [hfst, hcond], fun h => absurd h hfst⟩

/-- C6 witness: a call with no fields at all fails validation and leaves
the store unchanged. -/
theorem c6_validation_amended_witness :
    (checkTransaction ⟨[], []⟩ ⟨0, 0⟩ "u" ⟨none, none, none, none, false, none, none⟩).2 =
      ⟨[], []⟩ :=
  (c6_validation_amended ⟨[], []⟩ ⟨0, 0⟩ "u"
    ⟨none, none, none, none, false, none, none⟩).2 (by decide)

/-- C7 counterexample: a batch whose first entry is valid and whose
second entry has a numeric (non-string) category is rejected, yet the
first entry has already been upserted: the stored limits are not
unchanged. -/
theorem c7_counterexample :
    setCategoryLimit [] "u" (some [⟨.str "a", .num 5⟩, ⟨.num 1, .num 1⟩]) =
      (.invalidEntry, [⟨"u", "a", 5⟩]) ∧
    ([⟨"u", "a", 5⟩] : List CatLimit) ≠ [] := by
  refine ⟨by decide, by decide⟩

/-- The `/set-category-limit` loop on a batch whose first invalid entry
is `bad`: it stops at `bad`, returning 400, after having upserted every
entry of the valid preceding segment. -/
theorem setLimitsLoop_firstInvalid (u : String) (bad : LimitEntry)
    (pre rest : List LimitEntry) (ls : List CatLimit)
    (hpre : ∀ ent ∈ pre, entryValid ent = true)
    (hbad : entryValid bad = false) :
    setLimitsLoop u (pre ++ bad :: rest) ls =
      (.invalidEntry, pre.foldl (applyEntry u) ls) := by
  induction pre generalizing ls with
  | nil =>
    rcases bad with ⟨bc, bl⟩
    cases bc with
    | str s =>
      simp only [entryValid, Bool.true_and] at hbad
      cases hjn : jsNumber bl with
      | none =>
        simp [setLimitsLoop, hjn]
      | some n =>
        rw [hjn] at hbad
        have hn : n < 0 := by
          by_contra hge
          simp [not_lt.mp hge] at hbad
        simp [setLimitsLoop, hjn, hn]
    | num n => simp [setLimitsLoop]
    | undef => simp [setLimitsLoop]
  | cons ent pre ih =>
    have he := hpre ent (List.mem_cons_self ent pre)
    rcases ent with ⟨ec, el⟩
    cases ec with
    | str s =>
      simp only [entryValid, Bool.true_and] at he
      cases hjn : jsNumber el with
      | none => rw [hjn] at he; simp at he
      | some n =>
        rw [hjn] at he
        have hn : ¬n < 0 := by
          intro hlt
          simp [not_le.mpr hlt] at he
        simp only [List.cons_append, setLimitsLoop, hjn, if_neg hn, List.append_eq]
        rw [ih _ fun x hx => hpre x (List.mem_cons_of_mem _ hx)]
        simp [List.foldl_cons, applyEntry, hjn]
    | num n => simp [entryValid] at he
    | undef => simp [entryValid] at he

/-- C7 as amended: when some entry of the batch is invalid, the whole
batch is rejected at the first invalid entry, but the entries strictly
before it have already been applied: the stored limits after the call
reflect exactly the valid prefix (partial application is possible). -/
theorem c7_batch_amended (u : String) (ls : List CatLimit)
    (pre rest : List LimitEntry) (bad : LimitEntry)
    (hpre : ∀ ent ∈ pre, entryValid ent = true)
    (hbad : entryValid bad = false) :
    setCategoryLimit ls u (some (pre ++ bad :: rest)) =
      (.invalidEntry, pre.foldl (applyEntry u) ls) := by
  have hne : (pre ++ bad :: rest).isEmpty = false := by
    cases pre <;> simp [List.isEmpty]
  simp only [setCategoryLimit, hne, Bool.false_eq_true, if_false]
  exact setLimitsLoop_firstInvalid u bad pre rest ls hpre hbad

/-- C7 witness: batch of a valid entry, an invalid entry, and a further
valid entry on an empty store: the call is rejected and exactly the first
entry's limit has been stored. -/
theorem c7_batch_amended_witness :
    setCategoryLimit [] "u"
        (some [⟨.str "a", .num 5⟩, ⟨.num 1, .num 1⟩, ⟨.str "z", .num 9⟩]) =
      (.invalidEntry, [⟨"u", "a", 5⟩]) :=
  c7_batch_amended "u" [] [⟨.str "a", .num 5⟩] [⟨.str "z", .num 9⟩]
    ⟨.num 1, .num 1⟩ (by decide) (by decide)

/-- Store for the C8 counterexample: a transaction with amount -10 this
month — itself persisted by an admission call, see the counterexample's
first conjunct — and a configured cap of 0. -/
def c8store : ServerState :=
  ⟨[saveTxn ⟨"u", "Food", -10, "p", ⟨0, 1⟩, false⟩], [⟨"u", "Food", 0⟩]⟩

/-- C8 counterexample: with cap 0 configured, an admission call with
amount -10 passes validation and is persisted (first conjunct: the store
with the negative amount is program-reachable).  A later call with the
positive amount 5 and bypass false then computes `priorSpend = -10`,
`-10 + 5 > 0` is false, and the call ADMITS and saves — so with a cap of
0 not every positive amount is over the limit. -/
theorem c8_counterexample :
    (checkTransaction ⟨[], [⟨"u", "Food", 0⟩]⟩ ⟨0, 1⟩ "u"
        ⟨some "Food", some (-10), some "r", some "p", false, none, none⟩).2 = c8store ∧
    checkTransaction c8store ⟨0, 5⟩ "u"
        ⟨some "Food", some 5, some "r", some "p", false, none, none⟩ =
      (.saved false none,
        ⟨c8store.transactions ++ [saveTxn ⟨"u", "Food", 5, "p", ⟨0, 5⟩, false⟩],
          [⟨"u", "Food", 0⟩]⟩) ∧
    (0 : Int) < 5 := by
  refine ⟨by decide, by decide, by decide⟩

/-- C8 as amended: an absent cap is distinct from a zero cap.  With no
limit configured for (owner, category) the call admits and saves
regardless of the amount; with a configured cap of 0, a positive amount
is over the limit and rejected (when the bypass flag is false) whenever
the month-to-date prior spend is non-negative — a stored negative amount
(which validation admits, see C6) can make prior spend negative, and then
cap 0 admits a positive amount. -/
theorem c8_absent_vs_zero_cap (st : ServerState) (now : JsDate)
    (u c r p : String) (a : Int) (byp : Bool) (d : Option JsDate) (e : Option Bool)
    (hc : ¬c = "") (ha : ¬a = 0) (hr : ¬r = "") (hp : ¬p = "") :
    (findLimit st.limits u c = none →
      checkTransaction st now u ⟨some c, some a, some r, some p, byp, d, e⟩ =
        (.saved false none,
          { st with transactions := st.transactions ++ [saveTxn ⟨u, c, a, p, now, false⟩] })) ∧
    (∀ cl : CatLimit, findLimit st.limits u c = some cl → cl.limit = 0 → 0 < a →
      0 ≤ totalSpent st.transactions u c now →
      checkTransaction st now u ⟨some c, some a, some r, some p, false, d, e⟩ =
        (.limitExceeded ⟨cl.limit, totalSpent st.transactions u c now,
            cl.limit - totalSpent st.transactions u c now,
            a - (cl.limit - totalSpent st.transactions u c now)⟩, st)) := by
  constructor
  · intro hnone
    rw [checkTransaction_some st now u c r p a byp d e hc ha hr hp, hnone]
  · intro cl hsome hl0 hapos hspent
    have hover : totalSpent st.transactions u c now + a > cl.limit := by omega
    rw [checkTransaction_some st now u c r p a false d e hc ha hr hp, hsome]
    simp [hover]

/-- C8 witness: with no limit stored, amount 5 is admitted; with a stored
cap of 0 and no prior transactions (prior spend 0), the same call is
rejected with remaining 0 and exceed amount 5, leaving the store
unchanged. -/
theorem c8_absent_vs_zero_cap_witness :
    checkTransaction ⟨[], []⟩ ⟨0, 0⟩ "u"
        ⟨some "Food", some 5, some "r", some "p", false, none, none⟩ =
      (.saved false none, ⟨[saveTxn ⟨"u", "Food", 5, "p", ⟨0, 0⟩, false⟩], []⟩) ∧
    checkTransaction ⟨[], [⟨"u", "Food", 0⟩]⟩ ⟨0, 0⟩ "u"
        ⟨some "Food", some 5, some "r", some "p", false, none, none⟩ =
      (.limitExceeded ⟨0, 0, 0, 5⟩, ⟨[], [⟨"u", "Food", 0⟩]⟩) :=
  ⟨(c8_absent_vs_zero_cap ⟨[], []⟩ ⟨0, 0⟩ "u" "Food" "r" "p" 5 false none none
      (by decide) (by decide) (by decide) (by decide)).1 (by decide),
   (c8_absent_vs_zero_cap ⟨[], [⟨"u", "Food", 0⟩]⟩ ⟨0, 0⟩ "u" "Food" "r" "p" 5 false none none
      (by decide) (by decide) (by decide) (by decide)).2 ⟨"u", "Food", 0⟩
      (by decide) rfl (by decide) (by decide)⟩

/-- C9: the caller's body cannot set the stored timestamp or the
exceeded-limit flag (the handler never reads those body fields), and any
Transaction persisted by the call is a single appended record — `saveTxn`
of a document whose `date` is the server clock at the moment of the call,
whose `category`, `amount`, `payee` come from the request, and whose
`userId` is the authenticated identity.  (A fortiori: the stored record
itself carries no exceeded-limit path at all, and not even the payee.) -/
theorem c9_server_timestamp (st : ServerState) (now : JsDate) (u : String)
    (b : Body) (d : Option JsDate) (e : Option Bool) :
    checkTransaction st now u { b with date := d, exceededLimit := e } =
      checkTransaction st now u b ∧
    ((checkTransaction st now u b).2.transactions = st.transactions ∨
      ∃ c a p fl, b.category = some c ∧ b.amount = some a ∧ b.payee = some p ∧
        (checkTransaction st now u b).2.transactions =
          st.transactions ++ [saveTxn ⟨u, c, a, p, now, fl⟩]) := by
  rcases b with ⟨bc, ba, br, bp, byp, bd, be⟩
  refine ⟨rfl, ?_⟩
  cases hcond : (!presentStr bc || !presentNum ba || !presentStr br || !presentStr bp) with
  | true =>
    left
    simp [checkTransaction, hcond]
  | false =>
    rcases bc with _ | c
    · simp [presentStr] at hcond
    rcases ba with _ | a
    · simp [presentNum] at hcond
    rcases bp with _ | p
    · simp [presentStr] at hcond
    cases hfl : findLimit st.limits u c with
    | none =>
      right
      refine ⟨c, a, p, false, rfl, rfl, rfl, ?_⟩
      simp [checkTransaction, hcond, hfl]
    | some cl =>
      by_cases hov : cl.limit < totalSpent st.transactions u c now + a
      · cases byp with
        | true =>
          right
          refine ⟨c, a, p, true, rfl, rfl, rfl, ?_⟩
          simp [checkTransaction, hcond, hfl, hov]
        | false =>
          left
          simp [checkTransaction, hcond, hfl, hov]
      · right
        refine ⟨c, a, p, false, rfl, rfl, rfl, ?_⟩
        simp [checkTransaction, hcond, hfl, hov]

/-- C10: the batch limit-setting call accepts an entry whose category is
the empty string (any `typeof string` value passes) with a cap given as
the numeric string "50" (coerced by `Number`), and persists a
CategoryLimit record with the empty category and cap 50 (all
CategoryLimit paths are schema paths, and `findOneAndUpdate` runs no
validators by default). -/
theorem c10_empty_category_accepted :
    setCategoryLimit [] "u" (some [⟨.str "", .str "50"⟩]) = (.ok, [⟨"u", "", 50⟩]) := by
  decide
